import Mathlib

/-!
Verification development for the cloudbridge multi-cloud cost-reporting
client. The definitions below are a shallow embedding of the Rust source:

* src/cloud/mod.rs    — the common cost model (CostData, CostSummary, ...)
* src/cloud/aws.rs    — the AWS adapter (Cost Explorer parsing, service
                        aggregation, month-over-month computation, SigV4
                        signing structure, credential validation)
* src/cloud/aliyun.rs — the Aliyun adapter (BSS bill parsing, percent
                        encoding and V1 signing, credential validation)
* src/db.rs           — the DuckDB-backed summary/trend caches
* src/ui/dashboard.rs — the batch refresh loop

Rust `f64` amounts are embedded as `ℚ` (the claims under study concern
branch structure, sign, sums and exactly-representable divisions, not
floating-point rounding).  Timestamps are embedded as integer seconds.
Network calls are embedded by passing the (already received) response or
call outcome as an explicit argument.  `anyhow::Result` is embedded as
`Except String`.
-/

namespace Cloudbridge

/-! ## String ordering

Rust compares `&str` values byte-wise on their UTF-8 encodings; that
order coincides with lexicographic order on the code points, which is
what the comparators below compute.  They are used wherever the source
compares date strings or map keys. -/

/-- Strict byte-wise (code-point lexicographic) order on char lists. -/
def charListLt : List Char → List Char → Bool
  | [], [] => false
  | [], _ :: _ => true
  | _ :: _, [] => false
  | a :: as, b :: bs =>
      if a < b then true
      else if b < a then false
      else charListLt as bs

/-- Non-strict byte-wise order on char lists. -/
def charListLe (a b : List Char) : Bool := !charListLt b a

/-- Strict byte-wise order on strings (Rust's `str` Ord, `<`). -/
def rustStrLt (a b : String) : Bool := charListLt a.data b.data

/-- Non-strict byte-wise order on strings (Rust's `str` Ord, `<=`). -/
def rustStrLe (a b : String) : Bool := charListLe a.data b.data

/-! ## Common cost model (src/cloud/mod.rs) -/

/-- Cloud provider type (mod.rs, enum CloudProvider). -/
inductive CloudProvider where
  | AWS
  | Aliyun
  | Azure
  | GCP
deriving DecidableEq

/-- One cost observation (mod.rs, struct CostData). -/
structure CostData where
  account_id : String
  date : String
  service : String
  amount : ℚ
  currency : String
deriving DecidableEq

/-- Per-service cost detail (mod.rs, struct ServiceCost). -/
structure ServiceCost where
  service : String
  amount : ℚ
  currency : String
deriving DecidableEq

/-- Daily cost point (mod.rs, struct DailyCost). -/
structure DailyCost where
  date : String
  amount : ℚ
deriving DecidableEq

/-- Cost trend series (mod.rs, struct CostTrend). -/
structure CostTrend where
  account_id : String
  currency : String
  daily_costs : List DailyCost
deriving DecidableEq

/-- Cost summary (mod.rs, struct CostSummary). -/
structure CostSummary where
  account_id : String
  account_name : String
  provider : CloudProvider
  current_month_cost : ℚ
  last_month_cost : ℚ
  currency : String
  month_over_month_change : ℚ
  current_month_details : List ServiceCost
  last_month_details : List ServiceCost
deriving DecidableEq

/-- Cloud account (mod.rs, struct CloudAccount; the timestamp fields are
not consulted by any embedded operation and are omitted). -/
structure CloudAccount where
  id : String
  name : String
  provider : CloudProvider
  access_key_id : String
  secret_access_key : String
  region : Option String
  enabled : Bool
deriving DecidableEq

/-! ## AWS adapter (src/cloud/aws.rs) -/

namespace Aws

/-- STS GetCallerIdentity result (aws.rs, struct StsCallerIdentity). -/
structure StsCallerIdentity where
  account : String
  arn : String
  user_id : String
deriving DecidableEq

/-- Embedding of AwsCloudService::validate_credentials (aws.rs:590-605):
the outcome of the STS GetCallerIdentity probe is passed in; on success
the method returns Ok(true), on failure it propagates the error. -/
def validate_credentials (probe : Except String StsCallerIdentity) :
    Except String Bool :=
  match probe with
  | .ok _ => .ok true
  | .error e => .error e

/-- Percent-decoded amount string of a Cost Explorer metric (aws.rs local
struct CostAmount): `amount` models the f64 value obtained from
`.parse().unwrap_or(0.0)` — `none` stands for an unparseable string. -/
structure CostAmount where
  amount : Option ℚ
  unit : String
deriving DecidableEq

/-- Cost Explorer metrics wrapper (aws.rs local struct CostMetrics). -/
structure CostMetrics where
  unblended_cost : CostAmount
deriving DecidableEq

/-- Cost Explorer group (aws.rs local struct CostGroup). -/
structure CostGroup where
  keys : List String
  metrics : CostMetrics
deriving DecidableEq

/-- Cost Explorer per-period result for the service-grouped query
(aws.rs local struct TimeResult): `start` is TimePeriod.Start. -/
structure TimeResult where
  start : String
  groups : Option (List CostGroup)
deriving DecidableEq

/-- Cost Explorer per-period result for the daily-total query
(aws.rs, parse_daily_cost_response local struct TimeResult). -/
structure DailyTimeResult where
  start : String
  total : Option CostMetrics
deriving DecidableEq

/-- Embedding of parse_cost_explorer_response (aws.rs:454-526): one
CostData per (period, service group) with strictly positive amount; the
`ResultsByTime` field is `Option`, absent means no records. -/
def parse_cost_explorer_response (results_by_time : Option (List TimeResult))
    (account_id : String) : List CostData :=
  (results_by_time.getD []).flatMap fun result =>
    (result.groups.getD []).filterMap fun group =>
      let service_name := group.keys.head?.getD ""
      let amount := group.metrics.unblended_cost.amount.getD 0
      let currency := group.metrics.unblended_cost.unit
      if 0 < amount then
        some ⟨account_id, result.start, service_name, amount, currency⟩
      else
        none

/-- Embedding of parse_daily_cost_response (aws.rs:529-587): one CostData
per period that has a Total, with service fixed to "Total"; the amount is
pushed with no sign check. -/
def parse_daily_cost_response (results_by_time : Option (List DailyTimeResult))
    (account_id : String) : List CostData :=
  (results_by_time.getD []).filterMap fun result =>
    result.total.map fun total =>
      let amount := total.unblended_cost.amount.getD 0
      ⟨account_id, result.start, "Total", amount, total.unblended_cost.unit⟩

/-- Descending-by-amount comparator used by aggregate_costs_by_service
(aws.rs:704, stable sort, ties compare Equal). -/
def amountDesc (a b : ServiceCost) : Prop := b.amount ≤ a.amount

instance : DecidableRel amountDesc := fun a b =>
  inferInstanceAs (Decidable (b.amount ≤ a.amount))

instance : IsTotal ServiceCost amountDesc :=
  ⟨fun a b => le_total b.amount a.amount⟩

instance : IsTrans ServiceCost amountDesc :=
  ⟨fun _ _ _ hab hbc => le_trans hbc hab⟩

/-- One fold step of the HashMap accumulation in aggregate_costs_by_service
(aws.rs:690): add `amount` to the entry for `service`, inserting it if
absent.  The map is embedded as an association list in first-insertion
order (Rust's HashMap iteration order is arbitrary; every property proved
below is insensitive to that order). -/
def upsertAdd (service : String) (amount : ℚ) :
    List (String × ℚ) → List (String × ℚ)
  | [] => [(service, amount)]
  | (s, a) :: t =>
      if s = service then (s, a + amount) :: t
      else (s, a) :: upsertAdd service amount t

/-- Embedding of aggregate_costs_by_service (aws.rs:683-707): sum amounts
per service in a map, take the last-seen currency (default "USD"), and
stable-sort the entries by amount descending. -/
def aggregate_costs_by_service (costs : List CostData) : List ServiceCost :=
  let service_map := costs.foldl (fun m c => upsertAdd c.service c.amount m) []
  let currency := ((costs.getLast?).map (fun c => c.currency)).getD "USD"
  let result := service_map.map fun p => ServiceCost.mk p.1 p.2 currency
  result.insertionSort amountDesc

/-- Embedding of the month-over-month computation in
AwsCloudService::get_cost_summary (aws.rs:636-640): there is no special
branch for a zero last month — anything with last_month_cost ≤ 0 yields
0.0. -/
def month_over_month_change (current_month_cost last_month_cost : ℚ) : ℚ :=
  if 0 < last_month_cost then
    ((current_month_cost - last_month_cost) / last_month_cost) * 100
  else
    0

/-- Embedding of AwsCloudService::get_cost_summary (aws.rs:611-663) given
the records fetched for the current and previous calendar month. -/
def get_cost_summary (account_id account_name : String)
    (current_costs last_costs : List CostData) : CostSummary :=
  let current_month_cost := (current_costs.map (fun c => c.amount)).sum
  let last_month_cost := (last_costs.map (fun c => c.amount)).sum
  let change := month_over_month_change current_month_cost last_month_cost
  let currency := ((current_costs.head?).map (fun c => c.currency)).getD "USD"
  { account_id := account_id
    account_name := account_name
    provider := CloudProvider.AWS
    current_month_cost := current_month_cost
    last_month_cost := last_month_cost
    currency := currency
    month_over_month_change := change
    current_month_details := aggregate_costs_by_service current_costs
    last_month_details := aggregate_costs_by_service last_costs }

end Aws

/-! ## Aliyun adapter (src/cloud/aliyun.rs) -/

namespace Aliyun

/-- Bill overview item (aliyun.rs, struct BillOverviewItem; the fields not
read by the code are omitted). -/
structure BillOverviewItem where
  product_name : Option String
  pretax_amount : Option ℚ
deriving DecidableEq

/-- Items wrapper (aliyun.rs, struct BillOverviewItems). -/
structure BillOverviewItems where
  item : Option (List BillOverviewItem)
deriving DecidableEq

/-- Bill overview data (aliyun.rs, struct BillOverviewData). -/
structure BillOverviewData where
  items : Option BillOverviewItems
deriving DecidableEq

/-- Bill overview response (aliyun.rs, struct BillOverviewResponse). -/
structure BillOverviewResponse where
  data : Option BillOverviewData
deriving DecidableEq

/-- Instance bill item (aliyun.rs, struct InstanceBillItem). -/
structure InstanceBillItem where
  billing_date : Option String
  product_name : Option String
  pretax_amount : Option ℚ
deriving DecidableEq

/-- Instance bill data (aliyun.rs, struct InstanceBillData). -/
structure InstanceBillData where
  items : Option (List InstanceBillItem)
deriving DecidableEq

/-- Instance bill response (aliyun.rs, struct InstanceBillResponse). -/
structure InstanceBillResponse where
  data : Option InstanceBillData
deriving DecidableEq

/-- Embedding of AliyunCloudService::validate_credentials
(aliyun.rs:221-233): the outcome of the QueryBillOverview probe is passed
in; any failure resolves to Ok(false). -/
def validate_credentials (probe : Except String BillOverviewResponse) :
    Except String Bool :=
  match probe with
  | .ok _ => .ok true
  | .error _ => .ok false

/-- Embedding of parse_bill_overview (aliyun.rs:356-390): total is the sum
over all items; the details list holds one entry per item with strictly
positive amount (duplicated product names are NOT merged), stable-sorted
by amount descending. -/
def parse_bill_overview (response : BillOverviewResponse) :
    ℚ × List ServiceCost :=
  let items :=
    ((response.data.bind fun d => d.items).bind fun w => w.item).getD []
  let total_cost := (items.map (fun i => i.pretax_amount.getD 0)).sum
  let details := items.filterMap fun i =>
    let amount := i.pretax_amount.getD 0
    if 0 < amount then
      some (ServiceCost.mk (i.product_name.getD "Unknown") amount "CNY")
    else
      none
  (total_cost, details.insertionSort Aws.amountDesc)

/-- Embedding of the month-over-month computation in
AliyunCloudService::get_cost_summary (aliyun.rs:279-285), including the
zero-last-month edge branch. -/
def month_over_month_change (current_month_cost last_month_cost : ℚ) : ℚ :=
  if 0 < last_month_cost then
    ((current_month_cost - last_month_cost) / last_month_cost) * 100
  else if 0 < current_month_cost then
    100
  else
    0

/-- Embedding of AliyunCloudService::get_cost_summary (aliyun.rs:261-298)
given the two bill-overview responses. -/
def get_cost_summary (account_id account_name : String)
    (current_overview last_overview : BillOverviewResponse) : CostSummary :=
  let current := parse_bill_overview current_overview
  let last := parse_bill_overview last_overview
  { account_id := account_id
    account_name := account_name
    provider := CloudProvider.Aliyun
    current_month_cost := current.1
    last_month_cost := last.1
    currency := "CNY"
    month_over_month_change := month_over_month_change current.1 last.1
    current_month_details := current.2
    last_month_details := last.2 }

/-- Number of bytes of the UTF-8 encoding of a character (used to embed
Rust's byte-indexed string slicing and byte-level percent encoding). -/
def utf8Len (c : Char) : Nat :=
  if c.toNat < 0x80 then 1
  else if c.toNat < 0x800 then 2
  else if c.toNat < 0x10000 then 3
  else 4

/-- Slice the first `n` BYTES of a character list, as Rust's `&s[..n]`
does: `none` models the panic taken when the string is shorter than `n`
bytes or byte index `n` is not a character boundary. -/
def sliceToByte : Nat → List Char → Option (List Char)
  | 0, _ => some []
  | _ + 1, [] => none
  | n + 1, c :: cs =>
      if utf8Len c ≤ n + 1 then
        (sliceToByte (n + 1 - utf8Len c) cs).map fun t => c :: t
      else
        none

/-- Embedding of AliyunCloudService::get_cost_data (aliyun.rs:235-259).
The billing cycle is `&start_date[..7]`; `none` models the panic of that
slice.  The DescribeInstanceBill response (which in the source is fetched
for that billing cycle) is passed in explicitly. -/
def get_cost_data (account_id : String) (start_date end_date : String)
    (response : InstanceBillResponse) : Option (List CostData) :=
  match sliceToByte 7 start_date.data with
  | none => none
  | some _billing_cycle =>
      let items := (response.data.bind fun d => d.items).getD []
      some <| items.filterMap fun item =>
        let date := item.billing_date.getD ""
        if rustStrLe start_date date && rustStrLe date end_date then
          some ⟨account_id, date, item.product_name.getD "Unknown",
                item.pretax_amount.getD 0, "CNY"⟩
        else
          none

end Aliyun

/-! ## Aliyun signer (src/cloud/aliyun.rs, percent_encode / sign_request) -/

namespace Aliyun

/-- Unreserved characters of the Aliyun encoding (aliyun.rs:52): the
ranges are code-point ranges, matching Rust's char range patterns. -/
def isUnreserved (c : Char) : Bool :=
  (65 ≤ c.toNat && c.toNat ≤ 90) ||
  (97 ≤ c.toNat && c.toNat ≤ 122) ||
  (48 ≤ c.toNat && c.toNat ≤ 57) ||
  c == '-' || c == '_' || c == '.' || c == '~'

/-- UTF-8 byte sequence of one character (models Rust's
`c.to_string().as_bytes()` at aliyun.rs:56). -/
def utf8Bytes (c : Char) : List Nat :=
  let n := c.toNat
  if n < 0x80 then [n]
  else if n < 0x800 then
    [0xC0 + n / 64, 0x80 + n % 64]
  else if n < 0x10000 then
    [0xE0 + n / 4096, 0x80 + (n / 64) % 64, 0x80 + n % 64]
  else
    [0xF0 + n / 262144, 0x80 + (n / 4096) % 64, 0x80 + (n / 64) % 64,
     0x80 + n % 64]

/-- Upper-case hexadecimal digit. -/
def hexDigit (n : Nat) : Char :=
  if n < 10 then Char.ofNat (48 + n) else Char.ofNat (55 + n)

/-- One percent-escaped byte, Rust's `format!("%{:02X}", byte)`. -/
def byteHexTriplet (b : Nat) : List Char :=
  ['%', hexDigit (b / 16), hexDigit (b % 16)]

/-- Encoding of a single character in percent_encode (aliyun.rs:50-61). -/
def percentEncodeChar (c : Char) : List Char :=
  if isUnreserved c then [c] else (utf8Bytes c).flatMap byteHexTriplet

/-- Embedding of AliyunCloudService::percent_encode (aliyun.rs:48-63). -/
def percent_encode (s : String) : String :=
  String.mk (s.data.flatMap percentEncodeChar)

/-- Insertion into a BTreeMap<String, String>, embedded as a
key-sorted (byte-wise ascending, duplicate-free) association list;
inserting an existing key replaces its value. -/
def btreeInsert (k v : String) : List (String × String) →
    List (String × String)
  | [] => [(k, v)]
  | p :: t =>
      if rustStrLt k p.1 then (k, v) :: p :: t
      else if k = p.1 then (k, v) :: t
      else p :: btreeInsert k v t

/-- The BTreeMap holding the request parameters, built by inserting the
supplied (key, value) pairs in order (aliyun.rs:87-116). -/
def buildBTreeMap (params : List (String × String)) :
    List (String × String) :=
  params.foldl (fun m p => btreeInsert p.1 p.2 m) []

/-- Canonical query string of sign_request (aliyun.rs:68-72): iterate the
BTreeMap in key order, percent-encode keys and values, join with '&'. -/
def canonicalQueryString (m : List (String × String)) : String :=
  String.intercalate "&"
    (m.map fun p => percent_encode p.1 ++ "=" ++ percent_encode p.2)

/-- String-to-sign of sign_request (aliyun.rs:75-79). -/
def string_to_sign (m : List (String × String)) : String :=
  "GET&" ++ percent_encode "/" ++ "&" ++ percent_encode (canonicalQueryString m)

/-- Embedding of AliyunCloudService::sign_request (aliyun.rs:66-84).  The
HMAC-SHA1/Base64 primitive comes from an external crate and is passed as
a function argument; the signing key is the secret with '&' appended. -/
def sign_request (hmac_sha1_base64 : String → String → String)
    (access_key_secret : String) (m : List (String × String)) : String :=
  hmac_sha1_base64 (access_key_secret ++ "&") (string_to_sign m)

/-- Byte-wise order on parameter entries by key (the BTreeMap order). -/
def keyLt (p q : String × String) : Prop := rustStrLt p.1 q.1 = true

/-- First-match association lookup, used to characterize the BTreeMap
embedding. -/
def lookupB (k : String) : List (String × String) → Option String
  | [] => none
  | p :: t => if p.1 = k then some p.2 else lookupB k t

end Aliyun

/-! ## Database layer (src/db.rs) -/

namespace Db

/-- Cache time-to-live in hours (db.rs:19, CACHE_TTL_HOURS). -/
def CACHE_TTL_HOURS : ℤ := 6

/-- The TTL as seconds; timestamps are embedded as integer seconds, and
`Duration::hours(CACHE_TTL_HOURS)` compares exactly. -/
def cacheTtlSeconds : ℤ := CACHE_TTL_HOURS * 3600

/-- One row of cost_summary_cache (db.rs:68-82; account_id is the
primary key; the details columns hold JSON which round-trips through
serde, embedded here as the lists themselves; cached_at is the parsed
RFC3339 instant). -/
structure SummaryCacheRow where
  account_id : String
  current_month_cost : ℚ
  last_month_cost : ℚ
  currency : String
  month_over_month_change : ℚ
  current_month_details : List ServiceCost
  last_month_details : List ServiceCost
  cached_at : ℤ
deriving DecidableEq

/-- One row of cost_trend_cache (db.rs:85-97; primary key is
(account_id, date)). -/
structure TrendCacheRow where
  account_id : String
  date : String
  amount : ℚ
  currency : String
  cached_at : ℤ
deriving DecidableEq

/-- One row of cost_data (db.rs:45-59). -/
structure CostDataRow where
  account_id : String
  date : String
  service : String
  amount : ℚ
  currency : String
deriving DecidableEq

/-- The four tables of the DuckDB database (db.rs:22-104). -/
structure DbState where
  cloud_accounts : List CloudAccount
  cost_data : List CostDataRow
  cost_summary_cache : List SummaryCacheRow
  cost_trend_cache : List TrendCacheRow
deriving DecidableEq

/-- Primary-key lookup in cost_summary_cache. -/
def lookupSummaryRow (cache : List SummaryCacheRow) (account_id : String) :
    Option SummaryCacheRow :=
  cache.find? fun r => r.account_id == account_id

/-- Embedding of get_cached_cost_summary_with_account (db.rs:328-407):
absent key yields None; an entry older than the TTL yields None;
otherwise the summary is rebuilt from the row, with account_id, name and
provider taken from the arguments. -/
def get_cached_cost_summary_with_account (db : DbState) (now : ℤ)
    (account_id account_name : String) (provider : CloudProvider) :
    Option CostSummary :=
  match lookupSummaryRow db.cost_summary_cache account_id with
  | none => none
  | some row =>
      if cacheTtlSeconds < now - row.cached_at then none
      else
        some
          { account_id := account_id
            account_name := account_name
            provider := provider
            current_month_cost := row.current_month_cost
            last_month_cost := row.last_month_cost
            currency := row.currency
            month_over_month_change := row.month_over_month_change
            current_month_details := row.current_month_details
            last_month_details := row.last_month_details }

/-- Embedding of save_cost_summary_cache (db.rs:410-438): INSERT OR
REPLACE on the primary key account_id, stamping cached_at = now. -/
def save_cost_summary_cache (db : DbState) (summary : CostSummary)
    (now : ℤ) : DbState :=
  { db with
    cost_summary_cache :=
      ⟨summary.account_id, summary.current_month_cost,
       summary.last_month_cost, summary.currency,
       summary.month_over_month_change, summary.current_month_details,
       summary.last_month_details, now⟩ ::
      db.cost_summary_cache.filter fun r =>
        !(r.account_id == summary.account_id) }

/-- Comparator for ORDER BY date in the trend-cache query. -/
def trendDateLe (a b : TrendCacheRow) : Prop := rustStrLe a.date b.date = true

instance : DecidableRel trendDateLe := fun a b =>
  inferInstanceAs (Decidable (rustStrLe a.date b.date = true))

/-- The fold computing the oldest cached_at over the selected rows
(db.rs:477-479): first row wins ties. -/
def oldestCachedAt (rows : List TrendCacheRow) : Option ℤ :=
  rows.foldl
    (fun acc r =>
      match acc with
      | none => some r.cached_at
      | some t => if r.cached_at < t then some r.cached_at else acc)
    none

/-- Embedding of get_cached_cost_trend (db.rs:441-509): select the rows
of the account with start_date <= date < end_date ordered by date; if
none, a miss; if the OLDEST of their cached_at stamps is expired, a
miss; otherwise a hit holding exactly the selected rows (there is no
check that every date of the requested range is present). -/
def get_cached_cost_trend (db : DbState) (now : ℤ)
    (account_id start_date end_date : String) : Option CostTrend :=
  let sel := db.cost_trend_cache.filter fun r =>
    r.account_id == account_id && rustStrLe start_date r.date &&
      rustStrLt r.date end_date
  let rows := sel.insertionSort trendDateLe
  let daily_costs := rows.map fun r => DailyCost.mk r.date r.amount
  let currency := ((rows.getLast?).map fun r => r.currency).getD "USD"
  if daily_costs.isEmpty then none
  else
    match oldestCachedAt rows with
    | some cached_at =>
        if cacheTtlSeconds < now - cached_at then none
        else some ⟨account_id, currency, daily_costs⟩
    | none => some ⟨account_id, currency, daily_costs⟩

/-- Embedding of delete_account (db.rs:228-244): delete the account's
cost_data rows, then the account row; the two cache tables are not
touched. -/
def delete_account (db : DbState) (account_id : String) : DbState :=
  { db with
    cost_data := db.cost_data.filter fun r => !(r.account_id == account_id)
    cloud_accounts := db.cloud_accounts.filter fun a => !(a.id == account_id) }

/-- Embedding of clear_account_cache (db.rs:545-560). -/
def clear_account_cache (db : DbState) (account_id : String) : DbState :=
  { db with
    cost_summary_cache :=
      db.cost_summary_cache.filter fun r => !(r.account_id == account_id)
    cost_trend_cache :=
      db.cost_trend_cache.filter fun r => !(r.account_id == account_id) }

/-- Embedding of clear_all_cache (db.rs:563-572). -/
def clear_all_cache (db : DbState) : DbState :=
  { db with cost_summary_cache := [], cost_trend_cache := [] }

end Db

/-! ## Dashboard batch refresh (src/ui/dashboard.rs) -/

namespace Dashboard

/-- One iteration of the per-account loop of DashboardView::refresh
(dashboard.rs:66-149): skip disabled accounts; use a fresh cache entry
when present; otherwise call the provider adapter (its get_cost_summary
outcome is the function argument `fetch`); on success write through to
the cache and append the summary; on failure log and skip; unsupported
providers are skipped. -/
def refreshStep (fetch : CloudAccount → Except String CostSummary)
    (now : ℤ) (acc : Db.DbState × List CostSummary)
    (account : CloudAccount) : Db.DbState × List CostSummary :=
  if account.enabled = false then acc
  else
    match Db.get_cached_cost_summary_with_account acc.1 now account.id
        account.name account.provider with
    | some cached => (acc.1, acc.2 ++ [cached])
    | none =>
        match account.provider with
        | CloudProvider.AWS =>
            match fetch account with
            | .ok summary =>
                (Db.save_cost_summary_cache acc.1 summary now,
                 acc.2 ++ [summary])
            | .error _ => acc
        | CloudProvider.Aliyun =>
            match fetch account with
            | .ok summary =>
                (Db.save_cost_summary_cache acc.1 summary now,
                 acc.2 ++ [summary])
            | .error _ => acc
        | _ => acc

/-- Embedding of the background body of DashboardView::refresh
(dashboard.rs:59-161): when the account enumeration fails the whole
refresh reports an error; otherwise every account is processed in order
and the summary list is delivered with Ok, whatever individual adapters
did. -/
def refresh (fetch : CloudAccount → Except String CostSummary) (now : ℤ)
    (db : Db.DbState) (accounts : Except String (List CloudAccount)) :
    Except String (List CostSummary) :=
  match accounts with
  | .error e => .error ("Failed to load data: " ++ e)
  | .ok accts => .ok ((accts.foldl (refreshStep fetch now) (db, [])).2)

end Dashboard

/-! ## Concrete fixtures used by the theorems below -/

/-- Bill overview with items X:10, X:5, Y:5 (the aggregation example of
the specification, fed to Aliyun parse_bill_overview). -/
def respXXY : Aliyun.BillOverviewResponse :=
  ⟨some ⟨some ⟨some [⟨some "X", some 10⟩, ⟨some "X", some 5⟩,
    ⟨some "Y", some 5⟩]⟩⟩⟩

/-- Instance-bill response holding a single credit item of -5 CNY. -/
def respNeg : Aliyun.InstanceBillResponse :=
  ⟨some ⟨some [⟨some "2024-01-05", some "ECS", some (-5)⟩]⟩⟩

/-- Daily-total Cost Explorer response holding a single credit day of
-3 USD. -/
def dailyNegResults : Option (List Aws.DailyTimeResult) :=
  some [⟨"2024-01-05", some ⟨⟨some (-3), "USD"⟩⟩⟩]

/-- Service-grouped Cost Explorer response holding one 2 USD group. -/
def ceOneResult : Option (List Aws.TimeResult) :=
  some [⟨"2024-05-01", some [⟨["AmazonEC2"], ⟨⟨some 2, "USD"⟩⟩⟩]⟩]

/-- A database with all four tables empty. -/
def dbEmpty : Db.DbState := ⟨[], [], [], []⟩

/-- A database whose trend cache holds one fresh entry for account "a"
on 2024-01-01, stamped at time 0. -/
def dbC4 : Db.DbState := ⟨[], [], [], [⟨"a", "2024-01-01", 5, "USD", 0⟩]⟩

/-- Enabled AWS account number 1. -/
def acct1 : CloudAccount :=
  ⟨"1", "one", CloudProvider.AWS, "ak", "sk", none, true⟩

/-- Enabled AWS account number 2 (the one whose adapter will fail). -/
def acct2 : CloudAccount :=
  ⟨"2", "two", CloudProvider.AWS, "ak", "sk", none, true⟩

/-- Enabled Aliyun account number 3. -/
def acct3 : CloudAccount :=
  ⟨"3", "three", CloudProvider.Aliyun, "ak", "sk", none, true⟩

/-- The summary the stub adapter returns for a succeeding account. -/
def mkSummaryC8 (a : CloudAccount) : CostSummary :=
  ⟨a.id, a.name, a.provider, 10, 5, "USD", 100, [], []⟩

/-- Stub adapter outcome: a transport error for account "2", success for
every other account. -/
def fetchC8 : CloudAccount → Except String CostSummary := fun a =>
  if a.id == "2" then Except.error "TransportError" else Except.ok (mkSummaryC8 a)

/-- A concrete cost summary for the cache round-trip witness. -/
def sumC5 : CostSummary :=
  ⟨"a", "n", CloudProvider.AWS, 10, 5, "USD", 100, [], []⟩

/-! ## Helper lemmas -/

/-- Slicing n bytes off an ASCII character list succeeds and takes the
first n characters. -/
theorem sliceToByte_ascii : ∀ (n : Nat) (l : List Char),
    (∀ c ∈ l, c.toNat < 128) → n ≤ l.length →
    Aliyun.sliceToByte n l = some (l.take n) := by
  intro n
  induction n with
  | zero => intro l _ _; simp [Aliyun.sliceToByte]
  | succ m ih =>
      intro l hascii hlen
      cases l with
      | nil => simp at hlen
      | cons c cs =>
          have hc : Aliyun.utf8Len c = 1 := by
            have : c.toNat < 128 := hascii c (List.mem_cons_self c cs)
            simp [Aliyun.utf8Len, this]
          have hcs : ∀ d ∈ cs, d.toNat < 128 := fun d hd =>
            hascii d (List.mem_cons_of_mem c hd)
          have hlen' : m ≤ cs.length := by
            simpa [List.length_cons, Nat.succ_le_succ_iff] using hlen
          simp [Aliyun.sliceToByte, hc, ih cs hcs hlen', List.take]

/-! ## Claims -/

/-- C1 (corrected): AWS get_cost_summary has no special branch for a
zero last-month cost — with last-month records empty and 50 in the
current month, the month-over-month change is 0, not the 100 the
specification demands. -/
theorem C1_counterexample :
    (Aws.get_cost_summary "acct" "name"
        [⟨"acct", "2024-05-01", "EC2", 50, "USD"⟩] []).month_over_month_change
      = 0
    ∧ (Aws.get_cost_summary "acct" "name"
        [⟨"acct", "2024-05-01", "EC2", 50, "USD"⟩] []).month_over_month_change
      ≠ 100 := by
  constructor <;>
    norm_num [Aws.get_cost_summary, Aws.month_over_month_change]

/-- C1 (amended): both adapters use (current - last) / last * 100 when
last > 0 (so 100, 50 gives -50); for last = 0 the Aliyun adapter follows
the edge rule (100 when current > 0, else 0) but the AWS adapter returns
0 regardless of the current-month cost. -/
theorem C1_month_over_month_amended :
    (∀ current last : ℚ, 0 < last →
        Aliyun.month_over_month_change current last
          = ((current - last) / last) * 100)
    ∧ Aliyun.month_over_month_change 50 0 = 100
    ∧ Aliyun.month_over_month_change 0 0 = 0
    ∧ Aliyun.month_over_month_change 50 100 = -50
    ∧ (∀ current last : ℚ, 0 < last →
        Aws.month_over_month_change current last
          = ((current - last) / last) * 100)
    ∧ (∀ current : ℚ, Aws.month_over_month_change current 0 = 0)
    ∧ Aws.month_over_month_change 50 100 = -50 := by
  refine ⟨fun c l h => ?_, by norm_num [Aliyun.month_over_month_change],
    by norm_num [Aliyun.month_over_month_change],
    by norm_num [Aliyun.month_over_month_change],
    fun c l h => ?_, fun c => ?_,
    by norm_num [Aws.month_over_month_change]⟩
  · simp [Aliyun.month_over_month_change, h]
  · simp [Aws.month_over_month_change, h]
  · norm_num [Aws.month_over_month_change]

/-- C1 witness: the amended theorem applied at current = 50, last = 100
for both adapters. -/
theorem C1_witness :
    Aliyun.month_over_month_change 50 100 = ((50 - 100) / 100) * 100
    ∧ Aws.month_over_month_change 50 100 = ((50 - 100) / 100) * 100 :=
  ⟨C1_month_over_month_amended.1 50 100 (by norm_num),
   C1_month_over_month_amended.2.2.2.2.1 50 100 (by norm_num)⟩

/-- C2 (corrected): the AWS adapter does not resolve a failed identity
probe to Ok(false) — it propagates the error. -/
theorem C2_counterexample :
    Aws.validate_credentials (Except.error "connection timed out")
      ≠ Except.ok false := by
  simp [Aws.validate_credentials]

/-- C2 (amended): the Aliyun adapter resolves any probe failure to
Ok(false) and probe success to Ok(true); the AWS adapter returns
Ok(true) on success but propagates the probe error unchanged. -/
theorem C2_validate_credentials_amended :
    (∀ e : String, Aliyun.validate_credentials (Except.error e)
        = Except.ok false)
    ∧ (∀ r, Aliyun.validate_credentials (Except.ok r) = Except.ok true)
    ∧ (∀ i, Aws.validate_credentials (Except.ok i) = Except.ok true)
    ∧ (∀ e : String, Aws.validate_credentials (Except.error e)
        = Except.error e) :=
  ⟨fun _ => rfl, fun _ => rfl, fun _ => rfl, fun _ => rfl⟩

/-- C3 (corrected): Aliyun parse_bill_overview does not merge duplicate
service names — on items X:10, X:5, Y:5 its details are the three
unmerged entries, not the [X:15, Y:5] the specification demands. -/
theorem C3_counterexample :
    (Aliyun.parse_bill_overview respXXY).2
      ≠ [ServiceCost.mk "X" 15 "CNY", ServiceCost.mk "Y" 5 "CNY"] := by
  norm_num [Aliyun.parse_bill_overview, respXXY, List.insertionSort,
    List.orderedInsert, Aws.amountDesc, List.filterMap]

/-- C3 (amended): AWS aggregate_costs_by_service sums per service and
sorts descending by amount (so the example yields [X:15, Y:5]) but keeps
zero-amount services and has no service-name tie-break; Aliyun
parse_bill_overview emits one detail per item, keeping only strictly
positive amounts, sorted by amount descending without merging
duplicates; every aggregate output is sorted descending by amount. -/
theorem C3_aggregation_amended :
    Aws.aggregate_costs_by_service
        [⟨"acct", "2024-05-01", "X", 10, "USD"⟩,
         ⟨"acct", "2024-05-01", "X", 5, "USD"⟩,
         ⟨"acct", "2024-05-02", "Y", 5, "USD"⟩]
      = [ServiceCost.mk "X" 15 "USD", ServiceCost.mk "Y" 5 "USD"]
    ∧ Aws.aggregate_costs_by_service [⟨"acct", "2024-05-01", "X", 0, "USD"⟩]
      = [ServiceCost.mk "X" 0 "USD"]
    ∧ (Aliyun.parse_bill_overview respXXY).2
      = [ServiceCost.mk "X" 10 "CNY", ServiceCost.mk "X" 5 "CNY",
         ServiceCost.mk "Y" 5 "CNY"]
    ∧ (∀ costs : List CostData,
        List.Sorted Aws.amountDesc (Aws.aggregate_costs_by_service costs)) := by
  refine ⟨?_, ?_, ?_, fun costs => List.sorted_insertionSort Aws.amountDesc _⟩
  · norm_num [Aws.aggregate_costs_by_service, Aws.upsertAdd,
      List.insertionSort, List.orderedInsert, Aws.amountDesc]
  · norm_num [Aws.aggregate_costs_by_service, Aws.upsertAdd,
      List.insertionSort, List.orderedInsert, Aws.amountDesc]
  · norm_num [Aliyun.parse_bill_overview, respXXY, List.insertionSort,
      List.orderedInsert, Aws.amountDesc, List.filterMap]

/-- C6 (corrected): Aliyun get_cost_data passes a provider credit of
-5 CNY through unclamped, so a normalized CostData record can carry a
negative amount. -/
theorem C6_counterexample :
    ∃ r, r ∈ (Aliyun.get_cost_data "acct" "2024-01-01" "2024-01-31"
        respNeg).getD [] ∧ r.amount < 0 :=
  ⟨⟨"acct", "2024-01-05", "ECS", -5, "CNY"⟩, by decide, by norm_num⟩

/-- C6 (amended): the service-grouped Cost Explorer parser keeps only
strictly positive amounts, so its records satisfy amount > 0; but the
daily-total Cost Explorer parser and the Aliyun instance-bill parser
push amounts with no sign check, so negative provider records surface
as negative CostData amounts. -/
theorem C6_amount_nonneg_amended :
    (∀ (results : Option (List Aws.TimeResult)) (aid : String)
        (r : CostData),
        r ∈ Aws.parse_cost_explorer_response results aid → 0 < r.amount)
    ∧ Aws.parse_daily_cost_response dailyNegResults "acct"
      = [⟨"acct", "2024-01-05", "Total", -3, "USD"⟩]
    ∧ Aliyun.get_cost_data "acct" "2024-01-01" "2024-01-31" respNeg
      = some [⟨"acct", "2024-01-05", "ECS", -5, "CNY"⟩] := by
  refine ⟨?_, by decide, by decide⟩
  intro results aid r hr
  simp only [Aws.parse_cost_explorer_response, List.mem_flatMap,
    List.mem_filterMap] at hr
  obtain ⟨tr, _, g, _, hsome⟩ := hr
  by_cases hpos : 0 < g.metrics.unblended_cost.amount.getD 0
  · rw [if_pos hpos] at hsome
    cases hsome
    exact hpos
  · rw [if_neg hpos] at hsome
    exact absurd hsome (by simp)

/-- C6 witness: the positivity of service-grouped parsing applied to a
concrete one-group response. -/
theorem C6_witness :
    0 < (CostData.mk "acct" "2024-05-01" "AmazonEC2" 2 "USD").amount :=
  C6_amount_nonneg_amended.1 ceOneResult "acct" _ (by decide)

/-- C9 (confirmed): the billing-cycle slice start_date[..7] panics
(embedded as none) whenever start_date has fewer than 7 UTF-8 bytes,
e.g. "2024"; for any ASCII start_date of length at least 7 — in
particular a well-formed YYYY-MM-DD string — the call is total. -/
theorem C9_billing_cycle_slice :
    (∀ (aid e : String) (resp : Aliyun.InstanceBillResponse),
        Aliyun.get_cost_data aid "2024" e resp = none)
    ∧ (∀ s : String, (∀ c ∈ s.data, c.toNat < 128) → 7 ≤ s.data.length →
        ∀ (aid e : String) (resp : Aliyun.InstanceBillResponse),
          (Aliyun.get_cost_data aid s e resp).isSome = true) := by
  constructor
  · intro aid e resp
    simp [Aliyun.get_cost_data, Aliyun.sliceToByte, Aliyun.utf8Len]
  · intro s hascii hlen aid e resp
    simp [Aliyun.get_cost_data, sliceToByte_ascii 7 s.data hascii hlen]

/-- C9 witness: the totality part applied at the well-formed date
2024-05-01. -/
theorem C9_witness :
    (Aliyun.get_cost_data "acct" "2024-05-01" "2024-05-31"
        ⟨none⟩).isSome = true :=
  C9_billing_cycle_slice.2 "2024-05-01" (by decide) (by decide)
    "acct" "2024-05-31" ⟨none⟩

/-- C10 (confirmed): delete_account leaves both cache tables untouched,
so cached summaries and trends for the deleted account keep answering
lookups exactly as before the deletion (until TTL or an explicit cache
clear). -/
theorem C10_delete_account_frame :
    ∀ (db : Db.DbState) (account_id : String),
      (Db.delete_account db account_id).cost_summary_cache
        = db.cost_summary_cache
      ∧ (Db.delete_account db account_id).cost_trend_cache
        = db.cost_trend_cache
      ∧ (∀ (now : ℤ) (k n : String) (p : CloudProvider),
          Db.get_cached_cost_summary_with_account
              (Db.delete_account db account_id) now k n p
            = Db.get_cached_cost_summary_with_account db now k n p)
      ∧ (∀ (now : ℤ) (k s e : String),
          Db.get_cached_cost_trend (Db.delete_account db account_id) now k s e
            = Db.get_cached_cost_trend db now k s e) :=
  fun _ _ => ⟨rfl, rfl, fun _ _ _ _ => rfl, fun _ _ _ _ => rfl⟩

/-- C4 (corrected): with only 2024-01-01 cached (fresh) and the range
2024-01-01 to 2024-01-03 requested, the date 2024-01-02 of the range has
no entry, yet the lookup returns a partial hit holding just the cached
day instead of the full miss the specification demands. -/
theorem C4_counterexample :
    Db.get_cached_cost_trend dbC4 0 "a" "2024-01-01" "2024-01-03"
      = some ⟨"a", "USD", [⟨"2024-01-01", 5⟩]⟩ := by decide

/-- C4 (amended): a trend-cache lookup is a hit as soon as at least one
date of the requested range has a cached entry and the oldest cached_at
among the selected entries is within the TTL; the hit holds exactly the
cached dates (partial results are returned, there is no completeness
check over the range); an empty selection or an expired oldest entry
yields None; every hit is nonempty. -/
theorem C4_trend_cache_amended :
    Db.get_cached_cost_trend dbC4 0 "a" "2024-01-04" "2024-01-06" = none
    ∧ Db.get_cached_cost_trend dbC4 30000 "a" "2024-01-01" "2024-01-03" = none
    ∧ Db.get_cached_cost_trend dbC4 21600 "a" "2024-01-01" "2024-01-03"
        = some ⟨"a", "USD", [⟨"2024-01-01", 5⟩]⟩
    ∧ (∀ (db : Db.DbState) (now : ℤ) (aid s e : String) (t : CostTrend),
        Db.get_cached_cost_trend db now aid s e = some t →
          t.daily_costs ≠ []) := by
  refine ⟨by decide, by decide, by decide, ?_⟩
  intro db now aid s e t h
  simp only [Db.get_cached_cost_trend] at h
  split at h
  · exact absurd h (by simp)
  · rename_i hne
    split at h
    · rename_i cached_at heq
      split at h
      · exact absurd h (by simp)
      · injection h with h2
        subst h2
        intro hnil
        dsimp only at hnil
        exact hne (by simp [hnil])
    · injection h with h2
      subst h2
      intro hnil
      dsimp only at hnil
      exact hne (by simp [hnil])

/-- C4 witness: the nonemptiness of a hit applied at the concrete
partial-hit scenario. -/
theorem C4_witness :
    (CostTrend.mk "a" "USD" [⟨"2024-01-01", 5⟩]).daily_costs ≠ [] :=
  C4_trend_cache_amended.2.2.2 dbC4 21600 "a" "2024-01-01" "2024-01-03"
    ⟨"a", "USD", [⟨"2024-01-01", 5⟩]⟩ (by decide)

/-- C5 (confirmed): a summary put followed by a get within the 6-hour
TTL returns the stored summary; a get after more than the TTL has
elapsed returns None; an absent key returns None; after clear_all_cache
every get returns None regardless of elapsed time. -/
theorem C5_summary_cache :
    (∀ (db : Db.DbState) (s : CostSummary) (tPut tGet : ℤ),
        tGet - tPut ≤ Db.cacheTtlSeconds →
        Db.get_cached_cost_summary_with_account
            (Db.save_cost_summary_cache db s tPut) tGet
            s.account_id s.account_name s.provider = some s)
    ∧ (∀ (db : Db.DbState) (s : CostSummary) (tPut tGet : ℤ),
        Db.cacheTtlSeconds < tGet - tPut →
        Db.get_cached_cost_summary_with_account
            (Db.save_cost_summary_cache db s tPut) tGet
            s.account_id s.account_name s.provider = none)
    ∧ (∀ (db : Db.DbState) (now : ℤ) (k n : String) (p : CloudProvider),
        Db.lookupSummaryRow db.cost_summary_cache k = none →
        Db.get_cached_cost_summary_with_account db now k n p = none)
    ∧ (∀ (db : Db.DbState) (now : ℤ) (k n : String) (p : CloudProvider),
        Db.get_cached_cost_summary_with_account (Db.clear_all_cache db)
          now k n p = none) := by
  refine ⟨?_, ?_, ?_, ?_⟩
  · intro db s tPut tGet h
    simp only [Db.save_cost_summary_cache,
      Db.get_cached_cost_summary_with_account, Db.lookupSummaryRow]
    rw [List.find?_cons_of_pos _ (by simp)]
    dsimp only
    rw [if_neg (not_lt.mpr h)]
  · intro db s tPut tGet h
    simp only [Db.save_cost_summary_cache,
      Db.get_cached_cost_summary_with_account, Db.lookupSummaryRow]
    rw [List.find?_cons_of_pos _ (by simp)]
    dsimp only
    rw [if_pos h]
  · intro db now k n p h
    simp only [Db.get_cached_cost_summary_with_account, Db.lookupSummaryRow]
      at h ⊢
    rw [h]
  · intro db now k n p
    simp [Db.get_cached_cost_summary_with_account, Db.lookupSummaryRow,
      Db.clear_all_cache, List.find?]

/-- C5 witness: the round trip and the expiry applied at a concrete
summary, put at time 0 and read at 3600 s (fresh) and 30000 s (stale). -/
theorem C5_witness :
    Db.get_cached_cost_summary_with_account
        (Db.save_cost_summary_cache dbEmpty sumC5 0) 3600 "a" "n"
        CloudProvider.AWS = some sumC5
    ∧ Db.get_cached_cost_summary_with_account
        (Db.save_cost_summary_cache dbEmpty sumC5 0) 30000 "a" "n"
        CloudProvider.AWS = none :=
  ⟨C5_summary_cache.1 dbEmpty sumC5 0 3600 (by decide),
   C5_summary_cache.2.1 dbEmpty sumC5 0 30000 (by decide)⟩

/-- C8 (confirmed): in the dashboard batch refresh, an enabled account
whose cache misses and whose adapter fails contributes nothing and
changes nothing — the refresh result equals the refresh of the other
accounts alone, and it is an Ok, not an error. -/
theorem C8_partial_failure :
    ∀ (fetch : CloudAccount → Except String CostSummary) (now : ℤ)
      (db : Db.DbState) (pre post : List CloudAccount)
      (account : CloudAccount) (msg : String),
      account.enabled = true →
      (account.provider = CloudProvider.AWS
        ∨ account.provider = CloudProvider.Aliyun) →
      Db.get_cached_cost_summary_with_account
          (pre.foldl (Dashboard.refreshStep fetch now) (db, [])).1 now
          account.id account.name account.provider = none →
      fetch account = Except.error msg →
      Dashboard.refresh fetch now db (Except.ok (pre ++ account :: post))
        = Dashboard.refresh fetch now db (Except.ok (pre ++ post)) := by
  intro fetch now db pre post account msg hen hprov hcache hfetch
  have hstep : ∀ st : Db.DbState × List CostSummary,
      Db.get_cached_cost_summary_with_account st.1 now account.id
          account.name account.provider = none →
      Dashboard.refreshStep fetch now st account = st := by
    intro st hc
    unfold Dashboard.refreshStep
    rw [if_neg (by simp [hen])]
    rw [hc]
    rcases hprov with h | h <;> rw [h] <;> simp [hfetch]
  simp only [Dashboard.refresh, List.foldl_append, List.foldl_cons,
    hstep _ hcache]

/-- C8 witness: three enabled accounts against an empty cache where the
adapter of account 2 raises a transport error — the result is exactly
the summaries of accounts 1 and 3, delivered as Ok. -/
theorem C8_witness :
    Dashboard.refresh fetchC8 0 dbEmpty (Except.ok [acct1, acct2, acct3])
      = Except.ok [mkSummaryC8 acct1, mkSummaryC8 acct3] :=
  calc
    Dashboard.refresh fetchC8 0 dbEmpty (Except.ok [acct1, acct2, acct3])
        = Dashboard.refresh fetchC8 0 dbEmpty (Except.ok ([acct1] ++ [acct3])) :=
          C8_partial_failure fetchC8 0 dbEmpty [acct1] [acct3] acct2
            "TransportError" rfl (Or.inl rfl) (by decide) rfl
    _ = Except.ok [mkSummaryC8 acct1, mkSummaryC8 acct3] := by
          simp only [Dashboard.refresh]
          congr 1

/-! ## Order and lookup lemmas for the BTreeMap embedding (claim C7) -/

/-- Byte-wise order is irreflexive. -/
theorem charListLt_irrefl : ∀ l : List Char, charListLt l l = false := by
  intro l
  induction l with
  | nil => rfl
  | cons c cs ih => simp [charListLt, ih]

/-- Byte-wise order is transitive. -/
theorem charListLt_trans : ∀ a b c : List Char, charListLt a b = true →
    charListLt b c = true → charListLt a c = true := by
  intro a
  induction a with
  | nil =>
      intro b c hab hbc
      cases b with
      | nil => simp [charListLt] at hab
      | cons y ys =>
          cases c with
          | nil => simp [charListLt] at hbc
          | cons z zs => simp [charListLt]
  | cons x xs ih =>
      intro b c hab hbc
      cases b with
      | nil => simp [charListLt] at hab
      | cons y ys =>
          cases c with
          | nil => simp [charListLt] at hbc
          | cons z zs =>
              simp only [charListLt] at hab hbc ⊢
              rcases lt_trichotomy x y with hxy | hxy | hxy
              · rcases lt_trichotomy y z with hyz | hyz | hyz
                · simp [lt_trans hxy hyz]
                · subst hyz; simp [hxy]
                · rw [if_neg (lt_asymm hyz), if_pos hyz] at hbc
                  exact absurd hbc (by simp)
              · subst hxy
                rw [if_neg (lt_irrefl x), if_neg (lt_irrefl x)] at hab
                rcases lt_trichotomy x z with hxz | hxz | hxz
                · simp [hxz]
                · subst hxz
                  rw [if_neg (lt_irrefl x), if_neg (lt_irrefl x)] at hbc ⊢
                  exact ih ys zs hab hbc
                · rw [if_neg (lt_asymm hxz), if_pos hxz] at hbc
                  exact absurd hbc (by simp)
              · rw [if_neg (lt_asymm hxy), if_pos hxy] at hab
                exact absurd hab (by simp)

/-- Two lists that are not byte-wise ordered either way are equal. -/
theorem charListLt_conn : ∀ a b : List Char, charListLt a b = false →
    charListLt b a = false → a = b := by
  intro a
  induction a with
  | nil =>
      intro b hab _
      cases b with
      | nil => rfl
      | cons y ys => simp [charListLt] at hab
  | cons x xs ih =>
      intro b hab hba
      cases b with
      | nil => simp [charListLt] at hba
      | cons y ys =>
          simp only [charListLt] at hab hba
          rcases lt_trichotomy x y with h | h | h
          · rw [if_pos h] at hab
            exact absurd hab (by simp)
          · subst h
            rw [if_neg (lt_irrefl x), if_neg (lt_irrefl x)] at hab hba
            rw [ih ys hab hba]
          · rw [if_pos h] at hba
            exact absurd hba (by simp)

/-- Byte-wise order on strings is transitive. -/
theorem rustStrLt_trans {a b c : String} (h1 : rustStrLt a b = true)
    (h2 : rustStrLt b c = true) : rustStrLt a c = true :=
  charListLt_trans a.data b.data c.data h1 h2

/-- Byte-wise order on strings is irreflexive. -/
theorem rustStrLt_irrefl (a : String) : rustStrLt a a = false :=
  charListLt_irrefl a.data

/-- Strings not byte-wise ordered either way are equal. -/
theorem rustStrLt_conn {a b : String} (h1 : rustStrLt a b = false)
    (h2 : rustStrLt b a = false) : a = b := by
  cases a with
  | mk da =>
      cases b with
      | mk db => exact congrArg String.mk (charListLt_conn da db h1 h2)

/-- Every element of btreeInsert k v m is (k, v) or an element of m. -/
theorem mem_btreeInsert : ∀ (m : List (String × String)) (k v : String)
    (q : String × String),
    q ∈ Aliyun.btreeInsert k v m → q = (k, v) ∨ q ∈ m := by
  intro m k v q
  induction m with
  | nil =>
      intro h
      simp [Aliyun.btreeInsert] at h
      exact Or.inl h
  | cons p t ih =>
      intro h
      simp only [Aliyun.btreeInsert] at h
      split at h
      · rcases List.mem_cons.mp h with h1 | h1
        · exact Or.inl h1
        · exact Or.inr h1
      · split at h
        · rcases List.mem_cons.mp h with h1 | h1
          · exact Or.inl h1
          · exact Or.inr (List.mem_cons_of_mem p h1)
        · rcases List.mem_cons.mp h with h1 | h1
          · exact Or.inr (h1 ▸ List.mem_cons_self p t)
          · rcases ih h1 with h2 | h2
            · exact Or.inl h2
            · exact Or.inr (List.mem_cons_of_mem p h2)

/-- btreeInsert preserves strict key sorting. -/
theorem pairwise_btreeInsert : ∀ (m : List (String × String)) (k v : String),
    m.Pairwise Aliyun.keyLt → (Aliyun.btreeInsert k v m).Pairwise Aliyun.keyLt := by
  intro m k v
  induction m with
  | nil => intro _; simp [Aliyun.btreeInsert]
  | cons p t ih =>
      intro hp
      rw [List.pairwise_cons] at hp
      obtain ⟨hpall, hpt⟩ := hp
      simp only [Aliyun.btreeInsert]
      split
      · rename_i hk
        refine List.pairwise_cons.mpr ⟨?_, List.pairwise_cons.mpr ⟨hpall, hpt⟩⟩
        intro q hq
        rcases List.mem_cons.mp hq with h1 | h1
        · subst h1; exact hk
        · exact rustStrLt_trans hk (hpall q h1)
      · rename_i hk
        split
        · rename_i heq
          refine List.pairwise_cons.mpr ⟨?_, hpt⟩
          intro q hq
          have hq2 := hpall q hq
          simp only [Aliyun.keyLt] at hq2 ⊢
          rw [heq]
          exact hq2
        · rename_i heq
          refine List.pairwise_cons.mpr ⟨?_, ih hpt⟩
          intro q hq
          rcases mem_btreeInsert t k v q hq with h1 | h1
          · subst h1
            simp only [Aliyun.keyLt]
            have hkf : rustStrLt k p.1 = false := by
              revert hk; cases rustStrLt k p.1 <;> simp
            cases hpk : rustStrLt p.1 k with
            | true => rfl
            | false => exact absurd (rustStrLt_conn hkf hpk) heq
          · exact hpall q h1

/-- Folding btreeInsert over any list preserves strict key sorting. -/
theorem pairwise_buildFold : ∀ (l m : List (String × String)),
    m.Pairwise Aliyun.keyLt →
    (l.foldl (fun acc p => Aliyun.btreeInsert p.1 p.2 acc) m).Pairwise
      Aliyun.keyLt := by
  intro l
  induction l with
  | nil => intro m hm; exact hm
  | cons p t ih => intro m hm; exact ih _ (pairwise_btreeInsert m p.1 p.2 hm)

/-- The BTreeMap embedding is strictly sorted by key. -/
theorem pairwise_buildBTreeMap (l : List (String × String)) :
    (Aliyun.buildBTreeMap l).Pairwise Aliyun.keyLt :=
  pairwise_buildFold l [] List.Pairwise.nil

/-- Lookup after btreeInsert: the inserted key wins, others unchanged. -/
theorem lookupB_btreeInsert : ∀ (m : List (String × String)) (k v k' : String),
    Aliyun.lookupB k' (Aliyun.btreeInsert k v m)
      = if k' = k then some v else Aliyun.lookupB k' m := by
  intro m k v k'
  induction m with
  | nil =>
      simp only [Aliyun.btreeInsert, Aliyun.lookupB]
      by_cases h : k' = k
      · simp [h]
      · simp [h, Ne.symm h]
  | cons p t ih =>
      simp only [Aliyun.btreeInsert]
      split
      · simp only [Aliyun.lookupB]
        by_cases h : k' = k
        · simp [h]
        · simp [h, Ne.symm h]
      · split
        · rename_i heq
          simp only [Aliyun.lookupB]
          by_cases h : k' = k
          · simp [h]
          · have hp : ¬(p.1 = k') := by rw [← heq]; exact Ne.symm h
            simp [h, Ne.symm h, hp]
        · rename_i hlt heq
          simp only [Aliyun.lookupB, ih]
          by_cases h : k' = k
          · have hp : ¬(p.1 = k') := fun hh => heq ((hh.trans h).symm)
            simp only [h, hp, if_true, if_false, if_pos, if_neg]
            simp [hp]
            exact fun hh => absurd hh (h ▸ hp)
          · simp [h]

/-- Lookup distributes over append, first list first. -/
theorem lookupB_append : ∀ (l₁ l₂ : List (String × String)) (k : String),
    Aliyun.lookupB k (l₁ ++ l₂)
      = match Aliyun.lookupB k l₁ with
        | some v => some v
        | none => Aliyun.lookupB k l₂ := by
  intro l₁
  induction l₁ with
  | nil => intro l₂ k; rfl
  | cons p t ih =>
      intro l₂ k
      simp only [List.cons_append, Aliyun.lookupB]
      by_cases h : p.1 = k
      · simp [h]
      · simp [h, ih]

/-- Lookup in a btreeInsert fold: the last insertion of a key wins, and
the initial map answers keys never inserted. -/
theorem lookupB_foldIns : ∀ (l m : List (String × String)) (k : String),
    Aliyun.lookupB k (l.foldl (fun acc p => Aliyun.btreeInsert p.1 p.2 acc) m)
      = match Aliyun.lookupB k l.reverse with
        | some v => some v
        | none => Aliyun.lookupB k m := by
  intro l
  induction l with
  | nil => intro m k; rfl
  | cons p t ih =>
      intro m k
      simp only [List.foldl_cons, List.reverse_cons, ih, lookupB_append]
      rw [lookupB_btreeInsert]
      cases Aliyun.lookupB k t.reverse with
      | some v => rfl
      | none =>
          simp only [Aliyun.lookupB]
          by_cases h : k = p.1
          · simp [h]
          · rw [if_neg h, if_neg (show ¬(p.1 = k) from fun hh => h hh.symm)]

/-- Lookup in the BTreeMap built from a list is last-insertion lookup. -/
theorem lookupB_buildBTreeMap (l : List (String × String)) (k : String) :
    Aliyun.lookupB k (Aliyun.buildBTreeMap l) = Aliyun.lookupB k l.reverse := by
  rw [Aliyun.buildBTreeMap, lookupB_foldIns]
  cases Aliyun.lookupB k l.reverse <;> rfl

/-- On duplicate-free keys, lookup is invariant under permutation. -/
theorem lookupB_perm : ∀ {l₁ l₂ : List (String × String)}, l₁.Perm l₂ →
    (l₁.map Prod.fst).Nodup → ∀ k, Aliyun.lookupB k l₁ = Aliyun.lookupB k l₂ := by
  intro l₁ l₂ h
  induction h with
  | nil => intro _ _; rfl
  | cons x h ih =>
      intro hnd k
      simp only [List.map_cons, List.nodup_cons] at hnd
      simp only [Aliyun.lookupB, ih hnd.2 k]
  | swap x y t =>
      intro hnd k
      simp only [List.map_cons, List.nodup_cons, List.mem_cons] at hnd
      simp only [Aliyun.lookupB]
      by_cases hy : y.1 = k
      · by_cases hx : x.1 = k
        · exact absurd (hy.trans hx.symm) (fun hh => hnd.1 (Or.inl hh))
        · simp [hy, hx]
      · simp [hy]
  | trans h1 h2 ih1 ih2 =>
      intro hnd k
      rw [ih1 hnd k, ih2 ((h1.map Prod.fst).nodup_iff.mp hnd) k]

/-- A successful lookup means the key occurs. -/
theorem lookupB_isSome_mem : ∀ (l : List (String × String)) (k v : String),
    Aliyun.lookupB k l = some v → k ∈ l.map Prod.fst := by
  intro l
  induction l with
  | nil => intro k v h; simp [Aliyun.lookupB] at h
  | cons p t ih =>
      intro k v h
      simp only [Aliyun.lookupB] at h
      by_cases hp : p.1 = k
      · simp [hp]
      · rw [if_neg hp] at h
        simp [ih k v h]

/-- Lookup of a key that occurs nowhere is none. -/
theorem lookupB_eq_none : ∀ (l : List (String × String)) (k : String),
    (∀ q ∈ l, q.1 ≠ k) → Aliyun.lookupB k l = none := by
  intro l
  induction l with
  | nil => intro _ _; rfl
  | cons p t ih =>
      intro k h
      simp only [Aliyun.lookupB]
      rw [if_neg (h p (List.mem_cons_self p t))]
      exact ih k fun q hq => h q (List.mem_cons_of_mem p hq)

/-- Two strictly key-sorted association lists with the same lookup
function are equal. -/
theorem pairwise_lookup_ext : ∀ (m₁ m₂ : List (String × String)),
    m₁.Pairwise Aliyun.keyLt → m₂.Pairwise Aliyun.keyLt →
    (∀ k, Aliyun.lookupB k m₁ = Aliyun.lookupB k m₂) → m₁ = m₂ := by
  intro m₁
  induction m₁ with
  | nil =>
      intro m₂ _ _ hk
      cases m₂ with
      | nil => rfl
      | cons q t₂ =>
          have h0 := hk q.1
          simp [Aliyun.lookupB] at h0
  | cons p t₁ ih =>
      intro m₂ hp1 hp2 hk
      cases m₂ with
      | nil =>
          have h0 := hk p.1
          simp [Aliyun.lookupB] at h0
      | cons q t₂ =>
          rw [List.pairwise_cons] at hp1 hp2
          obtain ⟨h1all, h1t⟩ := hp1
          obtain ⟨h2all, h2t⟩ := hp2
          have hpq : p.1 = q.1 := by
            have hpin : p.1 ∈ (q :: t₂).map Prod.fst := by
              apply lookupB_isSome_mem (q :: t₂) p.1 p.2
              rw [← hk p.1]
              simp [Aliyun.lookupB]
            have hqin : q.1 ∈ (p :: t₁).map Prod.fst := by
              apply lookupB_isSome_mem (p :: t₁) q.1 q.2
              rw [hk q.1]
              simp [Aliyun.lookupB]
            simp only [List.map_cons, List.mem_cons] at hpin hqin
            rcases hpin with h | h
            · exact h
            · rcases hqin with h' | h'
              · exact h'.symm
              · exfalso
                obtain ⟨r, hr, hrk⟩ := List.mem_map.mp h
                obtain ⟨r', hr', hrk'⟩ := List.mem_map.mp h'
                have hqp : rustStrLt q.1 p.1 = true := by
                  have h2 := h2all r hr
                  rw [Aliyun.keyLt] at h2
                  rwa [hrk] at h2
                have hpq2 : rustStrLt p.1 q.1 = true := by
                  have h1 := h1all r' hr'
                  rw [Aliyun.keyLt] at h1
                  rwa [hrk'] at h1
                have hcontra := rustStrLt_trans hpq2 hqp
                rw [rustStrLt_irrefl] at hcontra
                exact Bool.noConfusion hcontra
          have hv : p.2 = q.2 := by
            have h0 := hk p.1
            rw [show Aliyun.lookupB p.1 (p :: t₁) = some p.2 by
              simp [Aliyun.lookupB]] at h0
            rw [show Aliyun.lookupB p.1 (q :: t₂) = some q.2 by
              simp [Aliyun.lookupB, hpq.symm]] at h0
            exact Option.some.inj h0
          have htails : ∀ k, Aliyun.lookupB k t₁ = Aliyun.lookupB k t₂ := by
            intro k
            by_cases hkp : k = p.1
            · rw [lookupB_eq_none t₁ k ?_, lookupB_eq_none t₂ k ?_]
              · intro r hr hre
                have h2 := h2all r hr
                simp only [Aliyun.keyLt] at h2
                rw [hre, hkp, ← hpq] at h2
                rw [rustStrLt_irrefl] at h2
                exact Bool.noConfusion h2
              · intro r hr hre
                have h1 := h1all r hr
                simp only [Aliyun.keyLt] at h1
                rw [hre, hkp] at h1
                rw [rustStrLt_irrefl] at h1
                exact Bool.noConfusion h1
            · have h0 := hk k
              simp only [Aliyun.lookupB] at h0
              rw [if_neg (fun hh => hkp hh.symm)] at h0
              rw [if_neg (fun hh => hkp ((hpq.trans hh).symm))] at h0
              exact h0
          have hteq := ih t₂ h1t h2t htails
          rw [hteq, Prod.ext hpq hv]

/-- Building the BTreeMap from any permutation of a duplicate-free-key
parameter list yields the same map. -/
theorem buildBTreeMap_perm {l₁ l₂ : List (String × String)}
    (h : l₁.Perm l₂) (hnd : (l₁.map Prod.fst).Nodup) :
    Aliyun.buildBTreeMap l₁ = Aliyun.buildBTreeMap l₂ := by
  apply pairwise_lookup_ext _ _ (pairwise_buildBTreeMap l₁)
    (pairwise_buildBTreeMap l₂)
  intro k
  rw [lookupB_buildBTreeMap, lookupB_buildBTreeMap]
  apply lookupB_perm (l₁.reverse_perm.trans (h.trans l₂.reverse_perm.symm)) ?_ k
  rw [List.map_reverse]
  exact List.nodup_reverse.mpr hnd

/-- Length of the hex expansion: three characters per byte. -/
theorem flatMap_byteHexTriplet_length : ∀ bs : List Nat,
    (bs.flatMap Aliyun.byteHexTriplet).length = 3 * bs.length := by
  intro bs
  induction bs with
  | nil => rfl
  | cons b t ih =>
      simp only [List.flatMap_cons, List.length_append, ih,
        Aliyun.byteHexTriplet, List.length_cons, List.length_nil]
      omega

/-- A character has at least one UTF-8 byte. -/
theorem utf8Bytes_length_pos (c : Char) : 0 < (Aliyun.utf8Bytes c).length := by
  rw [Aliyun.utf8Bytes]
  split_ifs <;> simp

/-- C7 (confirmed): percent_encode keeps exactly the unreserved
characters A-Z a-z 0-9 - _ . ~ (a character encodes to itself iff it is
unreserved; every other character becomes one %XX triplet per UTF-8
byte, e.g. "A z-_.~€" encodes to "A%20z-_.~%E2%82%AC" with three
triplets for the euro sign); and the signature is independent of the
order in which parameters with distinct keys are supplied, because the
BTreeMap canonicalizes them in byte-wise ascending key order. -/
theorem C7_percent_encode_sign :
    Aliyun.percent_encode "A z-_.~€" = "A%20z-_.~%E2%82%AC"
    ∧ (∀ c : Char,
        Aliyun.percentEncodeChar c = [c] ↔ Aliyun.isUnreserved c = true)
    ∧ (∀ (hmac : String → String → String) (secret : String)
        (l₁ l₂ : List (String × String)),
        l₁.Perm l₂ → (l₁.map Prod.fst).Nodup →
        Aliyun.sign_request hmac secret (Aliyun.buildBTreeMap l₁)
          = Aliyun.sign_request hmac secret (Aliyun.buildBTreeMap l₂)) := by
  refine ⟨by decide, fun c => ⟨?_, ?_⟩, fun hmac secret l₁ l₂ h hnd => ?_⟩
  · intro h
    by_contra hne
    have hf : Aliyun.isUnreserved c = false := by
      revert hne; cases Aliyun.isUnreserved c <;> simp
    rw [Aliyun.percentEncodeChar, hf] at h
    simp only [Bool.false_eq_true, if_false] at h
    have hlen := congrArg List.length h
    rw [flatMap_byteHexTriplet_length] at hlen
    simp only [List.length_cons, List.length_nil] at hlen
    have hpos := utf8Bytes_length_pos c
    omega
  · intro h
    rw [Aliyun.percentEncodeChar, h]
    simp
  · exact congrArg (Aliyun.sign_request hmac secret) (buildBTreeMap_perm h hnd)

/-- C7 witness: two orderings of the parameters a=1, b=2 produce the
same signature under a concrete stand-in HMAC. -/
theorem C7_witness :
    Aliyun.sign_request (fun key msg => key ++ "|" ++ msg) "secret"
        (Aliyun.buildBTreeMap [("b", "2"), ("a", "1")])
      = Aliyun.sign_request (fun key msg => key ++ "|" ++ msg) "secret"
        (Aliyun.buildBTreeMap [("a", "1"), ("b", "2")]) :=
  C7_percent_encode_sign.2.2 (fun key msg => key ++ "|" ++ msg) "secret"
    [("b", "2"), ("a", "1")] [("a", "1"), ("b", "2")]
    (List.Perm.swap ("a", "1") ("b", "2") []) (by decide)

end Cloudbridge
